import Mathlib

/-!
# moveit_bot_kinematics_plugin: kinematics core and solution selector

A shallow embedding of

* `include/bot_kinematics/bot_kinematics.h` (`Parameters`, `inverse`, `forward`),
* `include/bot_kinematics/bot_kinematics_utils.h` (`isValid`, `harmonizeTowardZero`),
* `src/moveit_bot_kinematics_plugin.cpp` (`distance`, `getAllIK`, `searchPositionIK`).

Scalars of the template type `T` are elements of a linearly ordered field `K`
(the rationals for evaluation, the reals for the trigonometric statements).
A cell of a raw `T*` buffer that may hold a non-finite value is an `Option K`,
`none` standing for NaN or an infinity.  The `<cmath>` functions `sin`, `cos`
and the constant `M_PI` are passed to the definitions that use them.
Reading a vector past its end has no defined behaviour in the source; the
embedding returns `none` there.
-/

namespace bot_kinematics

/-- The struct `Parameters<T>`: eight geometry constants. -/
structure Parameters (K : Type) where
  a1 : K
  a2 : K
  a3 : K
  l1 : K
  l2 : K
  l3 : K
  t1 : K
  t3 : K

/-- A 4x4 matrix `Eigen::Matrix<T, 4, 4>`, also the matrix of a `Transform<T>`. -/
abbrev Mat4 (K : Type) := Matrix (Fin 4) (Fin 4) K

/-- The local `error_margin = pow(10,-2)` of `inverse`. -/
def error_margin {K : Type} [LinearOrderedField K] : K := 1 / (10 : K) ^ 2

/-- The matrix `t` that `inverse` assembles from the trial angles `theta1`, `theta2`. -/
def inverse_t {K : Type} [LinearOrderedField K] (sin cos : K → K) (p : Parameters K)
    (theta1 theta2 : K) : Mat4 K :=
  let a2 := p.a2
  let a3 := p.a3
  let c1 := cos theta1
  let s1 := sin theta1
  let c2 := cos theta2
  let s2 := sin theta2
  !![c1 * c2, -c1 * s2, s1, a3 * c1 * c2;
     s1 * c2, -s1 * s2, -c1, a3 * s1 * c2;
     s2, c2, 0, a3 * s2 + a2;
     0, 0, 0, 1]

/-- The residual loop of `inverse` over the rows still to test, with the current `flag`:
a residual above the margin clears the flag and leaves the loop. -/
def inverseLoop {K : Type} [LinearOrderedField K] (matrix t : Mat4 K) :
    List (Fin 4) → Bool → Bool
  | [], flag => flag
  | i :: rest, _ =>
    if error_margin < |matrix i 3 - t i 3| then false
    else inverseLoop matrix t rest true

/-- The value of `flag` after the loop of `inverse`, which runs over
`i < number_of_joint_angles = 2`. -/
def inverseFlag {K : Type} [LinearOrderedField K] (sin cos : K → K) (p : Parameters K)
    (pose : Mat4 K) (theta1 theta2 : K) : Bool :=
  inverseLoop pose (inverse_t sin cos p theta1 theta2) [0, 1] false

/-- The function `inverse(p, pose, out)`: the buffer `out` after the call.  The trial
angles `theta1`, `theta2` are not declared in the source file and are taken as arguments. -/
def inverse {K : Type} [LinearOrderedField K] (sin cos : K → K) (p : Parameters K)
    (pose : Mat4 K) (theta1 theta2 : K) (out : Fin 3 → Option K) : Fin 3 → Option K :=
  if inverseFlag sin cos p pose theta1 theta2 then
    fun i => if i = 0 then some theta1 else if i = 1 then some theta2 else out i
  else out

/-- The function `forward(p, qs)`: the matrix of the returned transform. -/
def forward {K : Type} [LinearOrderedField K] (sin cos : K → K) (p : Parameters K)
    (qs : Fin 3 → K) : Mat4 K :=
  let s1 := sin (qs 0)
  let s2 := sin (qs 1)
  let s3 := sin (qs 2)
  let c1 := cos (qs 0)
  let c2 := cos (qs 1)
  let c3 := cos (qs 2)
  let t01 : Mat4 K :=
    !![c1, s1, 0, 0;
       s1, c1, 0, 0;
       0, 0, 1, p.l1 + p.t1;
       0, 0, 1, 1]
  let t12 : Mat4 K :=
    !![s2, c2, 0, p.a1;
       0, 0, 1, p.l2 + p.l3;
       c2, s2, 0, 0;
       0, 0, 0, 1]
  let t23 : Mat4 K :=
    !![c3, s3, 0, 0;
       0, 0, 1, p.l3 + p.a2 + p.t1;
       s3, c3, 0, 0;
       0, 0, 0, 1]
  let t34 : Mat4 K :=
    !![1, 0, 0, p.t3;
       0, 1, 0, 0;
       0, 0, 1, p.a3;
       0, 0, 0, 1]
  t01 * t12 * t23 * t34

/-- The function `isValid(qs)`: all three cells hold a finite value. -/
def isValid {K : Type} (qs : Fin 3 → Option K) : Bool :=
  (qs 0).isSome && (qs 1).isSome && (qs 2).isSome

/-- The function `harmonizeTowardZero(qs)` on finite values: the buffer after the call,
with `pi` for `T(M_PI)` and `2 * pi` for `two_pi`. -/
def harmonizeTowardZero {K : Type} [LinearOrderedField K] (pi : K) (qs : Fin 3 → K) :
    Fin 3 → K :=
  fun i =>
    if qs i > pi then qs i - 2 * pi
    else if qs i < -pi then qs i + 2 * pi
    else qs i

/-- The rotation block of a 4x4 matrix: rows and columns 0 to 2. -/
def rotation {K : Type} (m : Mat4 K) : Matrix (Fin 3) (Fin 3) K :=
  fun i j => m (Fin.castSucc i) (Fin.castSucc j)

/-- The translation column of a 4x4 matrix: the entries (0,3), (1,3), (2,3). -/
def translation {K : Type} (m : Mat4 K) : Fin 3 → K :=
  ![m 0 3, m 1 3, m 2 3]

/-- The parameters of the concrete scenario: `a3 = 1`, all others zero. -/
def scenarioParams {K : Type} [LinearOrderedField K] : Parameters K :=
  { a1 := 0, a2 := 0, a3 := 1, l1 := 0, l2 := 0, l3 := 0, t1 := 0, t3 := 0 }

/-- Parameters with all eight constants zero. -/
def zeroParams {K : Type} [LinearOrderedField K] : Parameters K :=
  { a1 := 0, a2 := 0, a3 := 0, l1 := 0, l2 := 0, l3 := 0, t1 := 0, t3 := 0 }

/-- Parameters with `a1 = 1` and `a3 = 1`, all others zero. -/
def offsetParams {K : Type} [LinearOrderedField K] : Parameters K :=
  { a1 := 1, a2 := 0, a3 := 1, l1 := 0, l2 := 0, l3 := 0, t1 := 0, t3 := 0 }

/-- A pose with identity rotation and the translation `(x, y, z)`. -/
def poseAt {K : Type} [LinearOrderedField K] (x y z : K) : Mat4 K :=
  !![1, 0, 0, x;
     0, 1, 0, y;
     0, 0, 1, z;
     0, 0, 0, 1]

end bot_kinematics

namespace moveit_bot_kinematics_plugin

open bot_kinematics

/-- The value `moveit_msgs::MoveItErrorCodes::SUCCESS` of the message definition. -/
def SUCCESS : Int := 1

/-- The value `moveit_msgs::MoveItErrorCodes::NO_IK_SOLUTION` of the message definition. -/
def NO_IK_SOLUTION : Int := -31

/-- The struct `LimitObeyingSol` for storing and sorting solutions. -/
structure LimitObeyingSol (K : Type) where
  value : List K
  dist_from_seed : K

/-- The comparison `LimitObeyingSol::operator<`. -/
def LimitObeyingSol.lt {K : Type} [LinearOrderedField K] (x a : LimitObeyingSol K) : Bool :=
  decide (x.dist_from_seed < a.dist_from_seed)

/-- The order handed to the sort: `x` may stand before `a` when `a < x` does not hold. -/
def LimitObeyingSol.notAfter {K : Type} [LinearOrderedField K] (x a : LimitObeyingSol K) : Prop :=
  a.lt x = false

instance LimitObeyingSol.decNotAfter {K : Type} [LinearOrderedField K] :
    DecidableRel (LimitObeyingSol.notAfter : LimitObeyingSol K → LimitObeyingSol K → Prop) :=
  fun x a => inferInstanceAs (Decidable (a.lt x = false))

instance LimitObeyingSol.notAfter_total {K : Type} [LinearOrderedField K] :
    IsTotal (LimitObeyingSol K) LimitObeyingSol.notAfter :=
  ⟨fun x a => by
    simp only [LimitObeyingSol.notAfter, LimitObeyingSol.lt, decide_eq_false_iff_not, not_lt]
    exact le_total _ _⟩

instance LimitObeyingSol.notAfter_trans {K : Type} [LinearOrderedField K] :
    IsTrans (LimitObeyingSol K) LimitObeyingSol.notAfter :=
  ⟨fun x y z => by
    simp only [LimitObeyingSol.notAfter, LimitObeyingSol.lt, decide_eq_false_iff_not, not_lt]
    exact le_trans⟩

/-- The call `std::sort(begin, end)` on a vector of `LimitObeyingSol`: an insertion sort
by `operator<`, which keeps elements of equal distance in their original order. -/
def stdSort {K : Type} [LinearOrderedField K] (l : List (LimitObeyingSol K)) :
    List (LimitObeyingSol K) :=
  l.insertionSort LimitObeyingSol.notAfter

/-- The fields of the plugin object that `searchPositionIK` touches; `robot_state_` holds
the joint group positions of the `RobotState` the member pointer refers to. -/
structure MoveItBotKinematicsPlugin (K : Type) where
  active_ : Bool
  dimension_ : Nat
  tip_frames_ : List String
  bot_parameters_ : Parameters K
  robot_state_ : List K

/-- The callback type `IKCallbackFn`: called with the pose, a candidate and the error code
object, whose value it may read and overwrite; the new value is returned. -/
abbrev IKCallbackFn (K : Type) := Mat4 K → List K → Int → Int

/-- What a call of `searchPositionIK` leaves behind: the returned flag, the `solution` and
`error_code` reference arguments, the plugin object, and the list of callback invocations
(candidate and error code after the call) in the order they were made. -/
structure SearchResult (K : Type) where
  ret : Bool
  solution : List K
  error_code : Int
  self : MoveItBotKinematicsPlugin K
  calls : List (List K × Int)

/-- The loop of `distance(a, b)` from index `i` on, with the cost summed so far: it reads
`b[i]` for every index of `a`, which is past the end of `b` when `b` is the shorter. -/
def distanceLoop {K : Type} [LinearOrderedField K] : List K → List K → K → Option K
  | [], _, cost => some cost
  | _ :: _, [], _ => none
  | ai :: a, bi :: b, cost => distanceLoop a b (cost + |bi - ai|)

/-- The member `distance(a, b)`. -/
def distance {K : Type} [LinearOrderedField K] (a b : List K) : Option K :=
  distanceLoop a b 0

/-- The indices at which the loop of `distance(a, b)` reads `b[i]`: every `i < a.size()`,
in the order of the loop. -/
def distanceReads {K : Type} (a : List K) : List Nat :=
  List.range a.length

/-- The call `robot_state_->setJointGroupPositions(joint_model_group_, sol)`. -/
def setJointGroupPositions {K : Type} (self : MoveItBotKinematicsPlugin K) (sol : List K) :
    MoveItBotKinematicsPlugin K :=
  { self with robot_state_ := sol }

/-- The member `getAllIK(pose, joint_poses)`: its return value and the `joint_poses` it
leaves.  `sols` is the content of the local array `sols` when `inverse` is called on it;
the array is not initialised by the source, so the content is an argument. -/
def getAllIK {K : Type} [LinearOrderedField K] (sin cos : K → K) (pi : K)
    (self : MoveItBotKinematicsPlugin K) (theta1 theta2 : K) (sols : Fin 3 → Option K)
    (pose : Mat4 K) : Bool × List (List K) :=
  let sol := inverse sin cos self.bot_parameters_ pose theta1 theta2 sols
  let joint_poses : List (List K) :=
    if isValid sol then
      let tmp := harmonizeTowardZero pi (fun i => (sol i).getD 0)
      [[tmp 0, tmp 1, tmp 2]]
    else []
  (decide (joint_poses.length > 0), joint_poses)

/-- The first loop of `searchPositionIK`: every solution is written into the robot state,
checked against the bounds there, and kept with its distance to the seed when it passes. -/
def boundsLoop {K : Type} [LinearOrderedField K] (satisfiesBounds : List K → Bool)
    (ik_seed_state : List K) :
    List (List K) → MoveItBotKinematicsPlugin K → List (LimitObeyingSol K) →
      Option (MoveItBotKinematicsPlugin K × List (LimitObeyingSol K))
  | [], self, limit_obeying_solutions => some (self, limit_obeying_solutions)
  | sol :: rest, self, limit_obeying_solutions =>
    let self1 := setJointGroupPositions self sol
    if !satisfiesBounds self1.robot_state_ then
      boundsLoop satisfiesBounds ik_seed_state rest self1 limit_obeying_solutions
    else
      match distance sol ik_seed_state with
      | none => none
      | some d =>
        boundsLoop satisfiesBounds ik_seed_state rest self1
          (limit_obeying_solutions ++ [{ value := sol, dist_from_seed := d }])

/-- The second loop of `searchPositionIK`: the callback is invoked on the sorted solutions
in turn until the error code it leaves is `SUCCESS`. -/
def callbackLoop {K : Type} (solution_callback : IKCallbackFn K) (pose0 : Mat4 K)
    (self : MoveItBotKinematicsPlugin K) :
    List (LimitObeyingSol K) → List K → Int → List (List K × Int) → SearchResult K
  | [], solution, error_code, calls =>
    { ret := false, solution := solution, error_code := error_code, self := self,
      calls := calls }
  | sol :: rest, solution, error_code, calls =>
    let error_code1 := solution_callback pose0 sol.value error_code
    if error_code1 = SUCCESS then
      { ret := true, solution := sol.value, error_code := error_code1, self := self,
        calls := calls ++ [(sol.value, error_code1)] }
    else
      callbackLoop solution_callback pose0 self rest solution error_code1
        (calls ++ [(sol.value, error_code1)])

/-- The member `searchPositionIK` (the overload taking a vector of poses, which all others
forward to).  `satisfiesBounds` is the bounds check of the robot model on the joint group
positions, `ik` the call of `getAllIK` (its return value and the `joint_poses` it fills),
`solution_callback` is `none` for a null callback.  The poses are taken after
`tf::poseMsgToEigen`.  The result is `none` where the source reads past the end of a
vector. -/
def searchPositionIK {K : Type} [LinearOrderedField K] (self : MoveItBotKinematicsPlugin K)
    (satisfiesBounds : List K → Bool) (ik : Mat4 K → Bool × List (List K))
    (ik_poses : List (Mat4 K)) (ik_seed_state : List K) (solution : List K)
    (solution_callback : Option (IKCallbackFn K)) (error_code : Int) :
    Option (SearchResult K) :=
  if !self.active_ then
    some { ret := false, solution := solution, error_code := NO_IK_SOLUTION, self := self,
           calls := [] }
  else if ik_seed_state.length ≠ self.dimension_ then
    some { ret := false, solution := solution, error_code := NO_IK_SOLUTION, self := self,
           calls := [] }
  else if self.tip_frames_.length ≠ ik_poses.length then
    some { ret := false, solution := solution, error_code := NO_IK_SOLUTION, self := self,
           calls := [] }
  else
    match ik_poses.head? with
    | none => none
    | some pose0 =>
      if !(ik pose0).1 then
        some { ret := false, solution := solution, error_code := NO_IK_SOLUTION,
               self := self, calls := [] }
      else
        match boundsLoop satisfiesBounds ik_seed_state (ik pose0).2 self [] with
        | none => none
        | some (self1, limit_obeying_solutions) =>
          if limit_obeying_solutions.isEmpty then
            some { ret := false, solution := solution, error_code := error_code,
                   self := self1, calls := [] }
          else
            match solution_callback with
            | none =>
              match (stdSort limit_obeying_solutions).head? with
              | none => none
              | some front =>
                some { ret := true, solution := front.value, error_code := error_code,
                       self := self1, calls := [] }
            | some cb =>
              some (callbackLoop cb pose0 self1 (stdSort limit_obeying_solutions) solution
                error_code [])

/-- The L1 distance of the specification: the sum over `i` of `|candidate[i] - seed[i]|`. -/
def l1Distance {K : Type} [LinearOrderedField K] (candidate seed : List K) : K :=
  (List.zipWith (fun c s => |c - s|) candidate seed).sum

/-- The invocations the specification describes for a list of candidates: the callback is
called on each candidate in turn and sees the error code the call before it left; every
entry is the candidate with the error code after its call. -/
def invocations {K : Type} (cb : IKCallbackFn K) (pose0 : Mat4 K) :
    List (List K) → Int → List (List K × Int)
  | [], _ => []
  | c :: rest, e => (c, cb pose0 c e) :: invocations cb pose0 rest (cb pose0 c e)

/-- The result of every failure before the bounds loop. -/
def earlyFailure {K : Type} (self : MoveItBotKinematicsPlugin K) (solution : List K) :
    SearchResult K :=
  { ret := false, solution := solution, error_code := NO_IK_SOLUTION, self := self,
    calls := [] }

/-- A plugin object for the examples: initialised, three joints, one tip frame. -/
def demoPlugin : MoveItBotKinematicsPlugin ℚ :=
  { active_ := true, dimension_ := 3, tip_frames_ := ["tool0"],
    bot_parameters_ := { a1 := 0, a2 := 0, a3 := 1, l1 := 0, l2 := 0, l3 := 0, t1 := 0, t3 := 0 },
    robot_state_ := [9, 9, 9] }

/-- An initialised plugin object with the parameters of the concrete scenario. -/
def scenarioPlugin {K : Type} [LinearOrderedField K] : MoveItBotKinematicsPlugin K :=
  { active_ := true, dimension_ := 3, tip_frames_ := ["tool0"],
    bot_parameters_ := scenarioParams, robot_state_ := [0, 0, 0] }

/-- An inverse solver for the examples that reports three candidates for every pose. -/
def demoIK : Mat4 ℚ → Bool × List (List ℚ) :=
  fun _ => (true, [[1, 2, 3], [0, 0, 1], [0, 1, 0]])

/-- A callback for the examples: it accepts the candidate `[1, 2, 3]` only. -/
def demoCallback : IKCallbackFn ℚ :=
  fun _ c _ => if c = [1, 2, 3] then SUCCESS else 99999

theorem distanceLoop_eq {K : Type} [LinearOrderedField K] :
    ∀ (a b : List K) (cost d : K), distanceLoop a b cost = some d →
      d = cost + l1Distance a b := by
  intro a
  induction a with
  | nil => intro b cost d h; simp [distanceLoop] at h; simp [l1Distance, h]
  | cons x a ih =>
    intro b cost d h
    cases b with
    | nil => simp [distanceLoop] at h
    | cons y b =>
      simp only [distanceLoop] at h
      have := ih b _ d h
      simp only [l1Distance, List.zipWith_cons_cons, List.sum_cons] at this ⊢
      rw [this, abs_sub_comm y x]; ring

theorem distance_eq {K : Type} [LinearOrderedField K] (a b : List K) (d : K)
    (h : distance a b = some d) : d = l1Distance a b := by
  have := distanceLoop_eq a b 0 d h
  simpa using this

theorem distanceLoop_isSome {K : Type} [LinearOrderedField K] :
    ∀ (a b : List K) (cost : K), a.length ≤ b.length →
      ∃ d, distanceLoop a b cost = some d := by
  intro a
  induction a with
  | nil => intro b cost _; exact ⟨cost, by simp [distanceLoop]⟩
  | cons x a ih =>
    intro b cost h
    cases b with
    | nil => simp at h
    | cons y b =>
      simp only [distanceLoop]
      exact ih b _ (by simpa using h)

/-! ### The sort -/

theorem notAfter_iff {K : Type} [LinearOrderedField K] (x a : LimitObeyingSol K) :
    LimitObeyingSol.notAfter x a ↔ x.dist_from_seed ≤ a.dist_from_seed := by
  simp [LimitObeyingSol.notAfter, LimitObeyingSol.lt]

theorem stdSort_perm {K : Type} [LinearOrderedField K] (l : List (LimitObeyingSol K)) :
    (stdSort l).Perm l :=
  List.perm_insertionSort _ l

theorem stdSort_sorted {K : Type} [LinearOrderedField K] (l : List (LimitObeyingSol K)) :
    (stdSort l).Pairwise (fun x a => x.dist_from_seed ≤ a.dist_from_seed) := by
  have h := List.sorted_insertionSort (LimitObeyingSol.notAfter (K := K)) l
  exact List.Pairwise.imp (fun hxa => (notAfter_iff _ _).1 hxa) h

theorem stdSort_head_le {K : Type} [LinearOrderedField K] (l : List (LimitObeyingSol K))
    (front : LimitObeyingSol K) (h : (stdSort l).head? = some front) :
    front ∈ l ∧ ∀ s ∈ l, front.dist_from_seed ≤ s.dist_from_seed := by
  have hs := stdSort_sorted l
  have hp := stdSort_perm l
  cases hl : stdSort l with
  | nil => simp [hl] at h
  | cons y ys =>
    rw [hl] at h hs hp
    simp only [List.head?_cons, Option.some.injEq] at h
    subst h
    refine ⟨hp.subset (List.mem_cons_self _ _), fun s hsl => ?_⟩
    have hmem : s ∈ y :: ys := hp.symm.subset hsl
    rcases List.mem_cons.1 hmem with rfl | hin
    · exact le_refl _
    · exact (List.pairwise_cons.1 hs).1 s hin

/-! ### The bounds loop -/

theorem getLast?_getD_cons {α : Type} (a : α) (l : List α) (x : α) :
    ((a :: l).getLast?).getD x = (l.getLast?).getD a := by
  induction l generalizing a x with
  | nil => simp
  | cons b l ih => rw [List.getLast?_cons_cons, ih b x, ih b a]

theorem boundsLoop_spec {K : Type} [LinearOrderedField K] (satisfiesBounds : List K → Bool)
    (seed : List K) :
    ∀ (sols : List (List K)) (self self1 : MoveItBotKinematicsPlugin K)
      (acc los : List (LimitObeyingSol K)),
      boundsLoop satisfiesBounds seed sols self acc = some (self1, los) →
      ∃ new, los = acc ++ new ∧ new.map LimitObeyingSol.value = sols.filter satisfiesBounds ∧
        (∀ s ∈ new, distance s.value seed = some s.dist_from_seed) ∧
        self1 = { self with robot_state_ := (sols.getLast?).getD self.robot_state_ } := by
  intro sols
  induction sols with
  | nil =>
    intro self self1 acc los h
    simp only [boundsLoop, Option.some.injEq, Prod.mk.injEq] at h
    exact ⟨[], by simp [h.2.symm], by simp, by simp, by simp [h.1.symm]⟩
  | cons sol rest ih =>
    intro self self1 acc los h
    simp only [boundsLoop, setJointGroupPositions] at h
    have hlast : ∀ x : List K, ((sol :: rest).getLast?).getD x = (rest.getLast?).getD sol :=
      fun x => getLast?_getD_cons sol rest x
    by_cases hb : satisfiesBounds sol = true
    · simp only [hb, Bool.not_true, Bool.false_eq_true, if_false] at h
      cases hd : distance sol seed with
      | none => simp [hd] at h
      | some d =>
        simp only [hd] at h
        obtain ⟨new, h1, h2, h3, h4⟩ := ih _ _ _ _ h
        refine ⟨{ value := sol, dist_from_seed := d } :: new, by simp [h1], ?_, ?_, ?_⟩
        · simp [List.filter_cons, hb, h2]
        · intro s hs
          rcases List.mem_cons.1 hs with rfl | hs
          · exact hd
          · exact h3 s hs
        · rw [h4, hlast]
    · simp only [Bool.not_eq_true] at hb
      simp only [hb, Bool.not_false, if_true] at h
      obtain ⟨new, h1, h2, h3, h4⟩ := ih _ _ _ _ h
      refine ⟨new, h1, ?_, h3, ?_⟩
      · simp [List.filter_cons, hb, h2]
      · rw [h4, hlast]

theorem boundsLoop_isSome {K : Type} [LinearOrderedField K] (satisfiesBounds : List K → Bool)
    (seed : List K) :
    ∀ (sols : List (List K)) (self : MoveItBotKinematicsPlugin K)
      (acc : List (LimitObeyingSol K)),
      (∀ c ∈ sols.filter satisfiesBounds, c.length ≤ seed.length) →
      ∃ res, boundsLoop satisfiesBounds seed sols self acc = some res := by
  intro sols
  induction sols with
  | nil => intro self acc _; exact ⟨_, rfl⟩
  | cons sol rest ih =>
    intro self acc hlen
    simp only [boundsLoop, setJointGroupPositions]
    by_cases hb : satisfiesBounds sol = true
    · simp only [hb, Bool.not_true, Bool.false_eq_true, if_false]
      obtain ⟨d, hd⟩ := distanceLoop_isSome sol seed 0
        (hlen sol (by simp [List.filter_cons, hb]))
      simp only [distance, hd]
      exact ih _ _ (fun c hc => hlen c (by simp [List.filter_cons, hb, hc]))
    · simp only [Bool.not_eq_true] at hb
      simp only [hb, Bool.not_false, if_true]
      exact ih _ _ (fun c hc => hlen c (by simpa [List.filter_cons, hb] using hc))

/-! ### The callback loop -/

theorem invocations_append {K : Type} (cb : IKCallbackFn K) (pose0 : Mat4 K) :
    ∀ (l : List (List K)) (c : List K) (e : Int),
      ∃ e1, invocations cb pose0 (l ++ [c]) e =
        invocations cb pose0 l e ++ [(c, cb pose0 c e1)] := by
  intro l
  induction l with
  | nil => intro c e; exact ⟨e, by simp [invocations]⟩
  | cons x l ih =>
    intro c e
    obtain ⟨e1, h1⟩ := ih c (cb pose0 x e)
    exact ⟨e1, by simp [invocations, h1]⟩

theorem invocations_map_fst {K : Type} (cb : IKCallbackFn K) (pose0 : Mat4 K) :
    ∀ (l : List (List K)) (e : Int), (invocations cb pose0 l e).map Prod.fst = l := by
  intro l
  induction l with
  | nil => intro e; simp [invocations]
  | cons x l ih => intro e; simp [invocations, ih]

theorem callbackLoop_spec {K : Type} (cb : IKCallbackFn K) (pose0 : Mat4 K)
    (self : MoveItBotKinematicsPlugin K) :
    ∀ (l : List (LimitObeyingSol K)) (solution : List K) (e : Int)
      (calls : List (List K × Int)),
      (callbackLoop cb pose0 self l solution e calls).self = self ∧
      (((callbackLoop cb pose0 self l solution e calls).ret = true ∧
        ∃ pre s post, l = pre ++ s :: post ∧
          (callbackLoop cb pose0 self l solution e calls).calls =
            calls ++ invocations cb pose0 ((pre ++ [s]).map LimitObeyingSol.value) e ∧
          (∀ c ∈ invocations cb pose0 (pre.map LimitObeyingSol.value) e, c.2 ≠ SUCCESS) ∧
          (callbackLoop cb pose0 self l solution e calls).solution = s.value ∧
          (callbackLoop cb pose0 self l solution e calls).error_code = SUCCESS ∧
          (callbackLoop cb pose0 self l solution e calls).calls.getLast? =
            some (s.value, SUCCESS)) ∨
       ((callbackLoop cb pose0 self l solution e calls).ret = false ∧
          (callbackLoop cb pose0 self l solution e calls).calls =
            calls ++ invocations cb pose0 (l.map LimitObeyingSol.value) e ∧
          (∀ c ∈ invocations cb pose0 (l.map LimitObeyingSol.value) e, c.2 ≠ SUCCESS) ∧
          (callbackLoop cb pose0 self l solution e calls).solution = solution ∧
          (callbackLoop cb pose0 self l solution e calls).error_code =
            (((invocations cb pose0 (l.map LimitObeyingSol.value) e).getLast?).map
              Prod.snd).getD e)) := by
  intro l
  induction l with
  | nil =>
    intro solution e calls
    refine ⟨rfl, Or.inr ?_⟩
    simp [callbackLoop, invocations]
  | cons x l ih =>
    intro solution e calls
    by_cases hx : cb pose0 x.value e = SUCCESS
    · refine ⟨by simp [callbackLoop, hx], Or.inl ?_⟩
      refine ⟨by simp [callbackLoop, hx], [], x, l, rfl, ?_, ?_, ?_, ?_, ?_⟩
      · simp [callbackLoop, hx, invocations]
      · simp [invocations]
      · simp [callbackLoop, hx]
      · simp [callbackLoop, hx]
      · simp [callbackLoop, hx]
    · have hstep : callbackLoop cb pose0 self (x :: l) solution e calls =
          callbackLoop cb pose0 self l solution (cb pose0 x.value e)
            (calls ++ [(x.value, cb pose0 x.value e)]) := by
        simp [callbackLoop, hx]
      rw [hstep]
      obtain ⟨h0, h⟩ := ih solution (cb pose0 x.value e)
        (calls ++ [(x.value, cb pose0 x.value e)])
      refine ⟨h0, ?_⟩
      rcases h with ⟨hret, pre, s, post, hl, hc, hrej, hsol, herr, hlast⟩ |
        ⟨hret, hc, hrej, hsol, herr⟩
      · refine Or.inl ⟨hret, x :: pre, s, post, by simp [hl], ?_, ?_, hsol, herr, hlast⟩
        · rw [hc]; simp [invocations]
        · intro c hcmem
          simp only [List.map_cons, invocations, List.mem_cons] at hcmem
          rcases hcmem with rfl | hcmem
          · exact hx
          · exact hrej c hcmem
      · refine Or.inr ⟨hret, ?_, ?_, hsol, ?_⟩
        · rw [hc]; simp [invocations]
        · intro c hcmem
          simp only [List.map_cons, invocations, List.mem_cons] at hcmem
          rcases hcmem with rfl | hcmem
          · exact hx
          · exact hrej c hcmem
        · rw [herr]
          simp only [List.map_cons, invocations]
          cases hinv : invocations cb pose0 (List.map LimitObeyingSol.value l)
              (cb pose0 x.value e) with
          | nil => simp
          | cons y ys =>
            rw [List.getLast?_eq_getLast _ (List.cons_ne_nil y ys)]
            rw [List.getLast?_cons_cons, List.getLast?_eq_getLast _ (List.cons_ne_nil y ys)]
            simp

/-! ### The paths through `searchPositionIK` -/

theorem searchPositionIK_cases {K : Type} [LinearOrderedField K]
    (self : MoveItBotKinematicsPlugin K) (satisfiesBounds : List K → Bool)
    (ik : Mat4 K → Bool × List (List K)) (ik_poses : List (Mat4 K))
    (seed solution : List K) (cb : Option (IKCallbackFn K)) (e : Int) (r : SearchResult K)
    (h : searchPositionIK self satisfiesBounds ik ik_poses seed solution cb e = some r) :
    ((self.active_ = false ∨ seed.length ≠ self.dimension_ ∨
        self.tip_frames_.length ≠ ik_poses.length ∨
        ∃ pose0, ik_poses.head? = some pose0 ∧ (ik pose0).1 = false) ∧
      r = earlyFailure self solution) ∨
    (self.active_ = true ∧ seed.length = self.dimension_ ∧
      self.tip_frames_.length = ik_poses.length ∧
      ∃ pose0 self1 los, ik_poses.head? = some pose0 ∧ (ik pose0).1 = true ∧
        boundsLoop satisfiesBounds seed (ik pose0).2 self [] = some (self1, los) ∧
        ((los = [] ∧ r = { ret := false, solution := solution, error_code := e,
                           self := self1, calls := [] }) ∨
         (los ≠ [] ∧ cb = none ∧ ∃ front, (stdSort los).head? = some front ∧
            r = { ret := true, solution := front.value, error_code := e, self := self1,
                  calls := [] }) ∨
         (los ≠ [] ∧ ∃ f, cb = some f ∧
            r = callbackLoop f pose0 self1 (stdSort los) solution e []))) := by
  unfold searchPositionIK at h
  by_cases hact : self.active_ = true
  swap
  · simp only [Bool.not_eq_true] at hact
    simp only [hact, Bool.not_false, if_true, Option.some.injEq] at h
    exact Or.inl ⟨Or.inl hact, h.symm⟩
  simp only [hact, Bool.not_true, Bool.false_eq_true, if_false] at h
  by_cases hseed : seed.length = self.dimension_
  swap
  · simp only [ne_eq, hseed, not_false_eq_true, if_true, Option.some.injEq] at h
    exact Or.inl ⟨Or.inr (Or.inl hseed), h.symm⟩
  simp only [ne_eq, hseed, not_true_eq_false, if_false] at h
  by_cases htips : self.tip_frames_.length = ik_poses.length
  swap
  · simp only [htips, not_false_eq_true, if_true, Option.some.injEq] at h
    exact Or.inl ⟨Or.inr (Or.inr (Or.inl htips)), h.symm⟩
  simp only [htips, not_true_eq_false, if_false] at h
  cases hp : ik_poses.head? with
  | none => simp [hp] at h
  | some pose0 =>
    simp only [hp] at h
    by_cases hik : (ik pose0).1 = true
    swap
    · simp only [Bool.not_eq_true] at hik
      simp only [hik, Bool.not_false, if_true, Option.some.injEq] at h
      exact Or.inl ⟨Or.inr (Or.inr (Or.inr ⟨pose0, rfl, hik⟩)), h.symm⟩
    simp only [hik, Bool.not_true, Bool.false_eq_true, if_false] at h
    cases hb : boundsLoop satisfiesBounds seed (ik pose0).2 self [] with
    | none => simp [hb] at h
    | some res =>
      obtain ⟨self1, los⟩ := res
      simp only [hb] at h
      refine Or.inr ⟨hact, hseed, htips, pose0, self1, los, rfl, hik, hb, ?_⟩
      by_cases hemp : los = []
      · subst hemp
        simp only [List.isEmpty_nil, if_true, Option.some.injEq] at h
        exact Or.inl ⟨rfl, h.symm⟩
      · have hne : los.isEmpty = false := by
          cases los with
          | nil => exact absurd rfl hemp
          | cons _ _ => rfl
        simp only [hne, Bool.false_eq_true, if_false] at h
        cases cb with
        | none =>
          simp only at h
          cases hh : (stdSort los).head? with
          | none => simp [hh] at h
          | some front =>
            simp only [hh, Option.some.injEq] at h
            exact Or.inr (Or.inl ⟨hemp, rfl, front, rfl, h.symm⟩)
        | some f =>
          simp only [Option.some.injEq] at h
          exact Or.inr (Or.inr ⟨hemp, f, rfl, h.symm⟩)

theorem earlyFailure_of_check {K : Type} [LinearOrderedField K]
    (self : MoveItBotKinematicsPlugin K) (satisfiesBounds : List K → Bool)
    (ik : Mat4 K → Bool × List (List K)) (ik_poses : List (Mat4 K))
    (seed solution : List K) (cb : Option (IKCallbackFn K)) (e : Int)
    (h : self.active_ = false ∨ seed.length ≠ self.dimension_ ∨
        self.tip_frames_.length ≠ ik_poses.length ∨
        ∃ pose0, ik_poses.head? = some pose0 ∧ (ik pose0).1 = false) :
    searchPositionIK self satisfiesBounds ik ik_poses seed solution cb e =
      some (earlyFailure self solution) := by
  unfold searchPositionIK earlyFailure
  by_cases hact : self.active_ = true
  swap
  · simp only [Bool.not_eq_true] at hact
    simp [hact]
  by_cases hseed : seed.length = self.dimension_
  swap
  · simp [hact, hseed]
  by_cases htips : self.tip_frames_.length = ik_poses.length
  swap
  · simp [hact, hseed, htips]
  rcases h with h | h | h | ⟨pose0, hp, hik⟩
  · simp [hact] at h
  · exact absurd hseed h
  · exact absurd htips h
  · simp [hact, hseed, htips, hp, hik]

/-! ### The claims on the selector -/

/-- C1, selector minimality: when `searchPositionIK` is called without a callback and
returns success, the solution it returns is one of the candidates that satisfy the bounds,
and its L1 distance to the seed is at most that of every candidate that satisfies the
bounds. -/
theorem searchPositionIK_minimal {K : Type} [LinearOrderedField K]
    (self : MoveItBotKinematicsPlugin K) (satisfiesBounds : List K → Bool)
    (ik : Mat4 K → Bool × List (List K)) (ik_poses : List (Mat4 K))
    (seed solution : List K) (e : Int) (pose0 : Mat4 K) (r : SearchResult K)
    (hpose : ik_poses.head? = some pose0)
    (h : searchPositionIK self satisfiesBounds ik ik_poses seed solution none e = some r)
    (hret : r.ret = true) :
    r.solution ∈ (ik pose0).2.filter satisfiesBounds ∧
    ∀ c ∈ (ik pose0).2.filter satisfiesBounds,
      l1Distance r.solution seed ≤ l1Distance c seed := by
  rcases searchPositionIK_cases _ _ _ _ _ _ _ _ _ h with ⟨_, hr⟩ |
    ⟨_, _, _, p, self1, los, hp, _, hb, hcase⟩
  · rw [hr] at hret; simp [earlyFailure] at hret
  · rw [hpose] at hp
    obtain rfl : pose0 = p := by simpa using hp
    obtain ⟨new, hlos, hval, hdist, _⟩ := boundsLoop_spec _ _ _ _ _ _ _ hb
    simp only [List.nil_append] at hlos
    subst hlos
    rcases hcase with ⟨_, hr⟩ | ⟨_, _, front, hfront, hr⟩ | ⟨_, f, hf, _⟩
    · rw [hr] at hret; simp at hret
    · obtain ⟨hmem, hle⟩ := stdSort_head_le _ _ hfront
      have hsol : r.solution = front.value := by rw [hr]
      rw [hsol]
      refine ⟨?_, fun c hc => ?_⟩
      · rw [← hval]; exact List.mem_map_of_mem _ hmem
      · rw [← hval] at hc
        obtain ⟨s, hs, rfl⟩ := List.mem_map.1 hc
        rw [← distance_eq _ _ _ (hdist front hmem), ← distance_eq _ _ _ (hdist s hs)]
        exact hle s hs
    · simp at hf

/-- A call of C1 on three candidates, of which the bounds exclude the nearest. -/
theorem searchPositionIK_minimal_witness :
    searchPositionIK demoPlugin (fun c => decide (c ≠ [0, 0, 1])) demoIK [0] [0, 0, 0] []
        none 0 =
      some { ret := true, solution := [0, 1, 0], error_code := 0,
             self := { demoPlugin with robot_state_ := [0, 1, 0] }, calls := [] } ∧
    ([0, 1, 0] ∈ (demoIK 0).2.filter (fun c => decide (c ≠ [0, 0, 1])) ∧
      ∀ c ∈ (demoIK 0).2.filter (fun c => decide (c ≠ [0, 0, 1])),
        l1Distance [0, 1, 0] [0, 0, 0] ≤ l1Distance c [0, 0, 0]) := by
  have h : searchPositionIK demoPlugin (fun c => decide (c ≠ [0, 0, 1])) demoIK [0] [0, 0, 0]
      [] none 0 =
      some { ret := true, solution := [0, 1, 0], error_code := 0,
             self := { demoPlugin with robot_state_ := [0, 1, 0] }, calls := [] } := by
    simp [searchPositionIK, demoPlugin, demoIK, boundsLoop, distance, distanceLoop,
      setJointGroupPositions, stdSort, LimitObeyingSol.notAfter, LimitObeyingSol.lt]
    norm_num
  exact ⟨h, searchPositionIK_minimal demoPlugin _ demoIK [0] [0, 0, 0] [] 0 0 _ rfl h rfl⟩

/-- C3, counterexample: a call on a solver that is not initialised, a call with a seed of
the wrong length, a call with two poses for one tip frame and a call whose inverse solver
finds nothing all report one and the same error code, so the failure kinds of the claim
are not told apart by it. -/
theorem searchPositionIK_failure_kinds_same_code :
    (searchPositionIK { demoPlugin with active_ := false } (fun _ => true) demoIK [0]
        [0, 0, 0] [] none 0).map SearchResult.error_code =
      (searchPositionIK demoPlugin (fun _ => true) demoIK [0] [0, 0] [] none
        0).map SearchResult.error_code ∧
    (searchPositionIK demoPlugin (fun _ => true) demoIK [0] [0, 0] [] none
        0).map SearchResult.error_code =
      (searchPositionIK demoPlugin (fun _ => true) (fun _ => (false, [])) [0] [0, 0, 0] []
        none 0).map SearchResult.error_code ∧
    (searchPositionIK demoPlugin (fun _ => true) demoIK [0, 0] [0, 0, 0] [] none
        0).map SearchResult.error_code =
      (searchPositionIK demoPlugin (fun _ => true) (fun _ => (false, [])) [0] [0, 0, 0] []
        none 0).map SearchResult.error_code := by
  refine ⟨?_, ?_, ?_⟩ <;> simp [searchPositionIK, demoPlugin, demoIK]

/-- C3 as amended: `searchPositionIK` fails when the solver is not initialised, when the
seed length differs from the configured dimension, when the number of poses differs from
the number of tip frames, and when the inverse solver reports no candidate; in each of
these cases it returns false, leaves the solution and the solver as they were and reports
the one error code `NO_IK_SOLUTION`. -/
theorem searchPositionIK_early_failure {K : Type} [LinearOrderedField K]
    (self : MoveItBotKinematicsPlugin K) (satisfiesBounds : List K → Bool)
    (ik : Mat4 K → Bool × List (List K)) (ik_poses : List (Mat4 K))
    (seed solution : List K) (cb : Option (IKCallbackFn K)) (e : Int)
    (h : self.active_ = false ∨ seed.length ≠ self.dimension_ ∨
        self.tip_frames_.length ≠ ik_poses.length ∨
        ∃ pose0, ik_poses.head? = some pose0 ∧ (ik pose0).1 = false) :
    ∃ r, searchPositionIK self satisfiesBounds ik ik_poses seed solution cb e = some r ∧
      r.ret = false ∧ r.error_code = NO_IK_SOLUTION ∧ r.solution = solution ∧
      r.self = self ∧ r.calls = [] :=
  ⟨earlyFailure self solution, earlyFailure_of_check _ _ _ _ _ _ _ _ h, rfl, rfl, rfl, rfl,
    rfl⟩

/-- The amended C3 on a call with a seed of two entries for a solver of dimension three. -/
theorem searchPositionIK_early_failure_witness :
    ([0, 0] : List ℚ).length ≠ demoPlugin.dimension_ ∧
    ∃ r, searchPositionIK demoPlugin (fun _ => true) demoIK [0] [0, 0] [7] none 5 = some r ∧
      r.ret = false ∧ r.error_code = NO_IK_SOLUTION ∧ r.solution = [7] ∧
      r.self = demoPlugin ∧ r.calls = [] :=
  ⟨by decide, searchPositionIK_early_failure demoPlugin (fun _ => true) demoIK [0] [0, 0] [7]
    none 5 (Or.inr (Or.inl (by decide)))⟩

/-- C4, the code at two failing inputs: with three candidates of which none satisfies the
bounds, and with a callback that rejects every candidate, `searchPositionIK` returns false
and the error code it leaves is not `NO_IK_SOLUTION`: it is the value the caller passed
in (here `SUCCESS`) in the first call and the value the callback wrote last in the
second. -/
theorem searchPositionIK_rejection_error_code :
    (searchPositionIK demoPlugin (fun _ => false) demoIK [0] [0, 0, 0] [] none
        SUCCESS).map (fun r => (r.ret, r.error_code)) = some (false, SUCCESS) ∧
    (searchPositionIK demoPlugin (fun _ => true) demoIK [0] [0, 0, 0] []
        (some (fun _ _ _ => 99999)) NO_IK_SOLUTION).map (fun r => (r.ret, r.error_code)) =
      some (false, 99999) ∧
    SUCCESS ≠ NO_IK_SOLUTION ∧ (99999 : Int) ≠ NO_IK_SOLUTION := by
  refine ⟨?_, ?_, by decide, by decide⟩
  · simp [searchPositionIK, demoPlugin, demoIK, boundsLoop, setJointGroupPositions]
  · simp [searchPositionIK, demoPlugin, demoIK, boundsLoop, distance,
      distanceLoop, setJointGroupPositions, stdSort, LimitObeyingSol.notAfter,
      LimitObeyingSol.lt, callbackLoop, SUCCESS]
    norm_num [callbackLoop, SUCCESS, demoCallback]

/-- C5, counterexample: a successful call on a solver whose robot state holds the joint
positions `[9, 9, 9]` leaves the positions `[0, 1, 0]` of the last candidate there. -/
theorem searchPositionIK_changes_robot_state :
    (searchPositionIK demoPlugin (fun _ => true) demoIK [0] [0, 0, 0] [] none
        0).map (fun r => r.self.robot_state_) = some [0, 1, 0] ∧
    demoPlugin.robot_state_ = [9, 9, 9] ∧
    (searchPositionIK demoPlugin (fun _ => true) demoIK [0] [0, 0, 0] [] none
        0).map SearchResult.self ≠ some demoPlugin := by
  have h : (searchPositionIK demoPlugin (fun _ => true) demoIK [0] [0, 0, 0] [] none
      0).map (fun r => r.self.robot_state_) = some [0, 1, 0] := by
    simp [searchPositionIK, demoPlugin, demoIK, boundsLoop, distance, distanceLoop,
      setJointGroupPositions, stdSort, LimitObeyingSol.notAfter, LimitObeyingSol.lt]
    norm_num
  refine ⟨h, rfl, fun hself => ?_⟩
  cases hs : searchPositionIK demoPlugin (fun _ => true) demoIK [0] [0, 0, 0] [] none 0 with
  | none => simp [hs] at h
  | some r =>
    rw [hs] at h hself
    simp only [Option.map_some', Option.some.injEq] at h hself
    rw [hself] at h
    simp [demoPlugin] at h

/-- C5 as amended: after every call of `searchPositionIK` the fields `active_`,
`dimension_`, `tip_frames_` and `bot_parameters_` of the solver are as before; the joint
positions of its robot state are as before when the call fails at one of its checks before
the bounds loop, and are those of the last candidate of the inverse solver (the bounds loop
writes every candidate there) when the call passes these checks. -/
theorem searchPositionIK_frame {K : Type} [LinearOrderedField K]
    (self : MoveItBotKinematicsPlugin K) (satisfiesBounds : List K → Bool)
    (ik : Mat4 K → Bool × List (List K)) (ik_poses : List (Mat4 K))
    (seed solution : List K) (cb : Option (IKCallbackFn K)) (e : Int) (r : SearchResult K)
    (h : searchPositionIK self satisfiesBounds ik ik_poses seed solution cb e = some r) :
    r.self.active_ = self.active_ ∧ r.self.dimension_ = self.dimension_ ∧
    r.self.tip_frames_ = self.tip_frames_ ∧
    r.self.bot_parameters_ = self.bot_parameters_ ∧
    ((self.active_ = false ∨ seed.length ≠ self.dimension_ ∨
        self.tip_frames_.length ≠ ik_poses.length ∨
        ∃ pose0, ik_poses.head? = some pose0 ∧ (ik pose0).1 = false) →
      r.self.robot_state_ = self.robot_state_) ∧
    (∀ pose0, self.active_ = true → seed.length = self.dimension_ →
      self.tip_frames_.length = ik_poses.length → ik_poses.head? = some pose0 →
      (ik pose0).1 = true →
      r.self.robot_state_ = ((ik pose0).2.getLast?).getD self.robot_state_) := by
  have hearly : (self.active_ = false ∨ seed.length ≠ self.dimension_ ∨
        self.tip_frames_.length ≠ ik_poses.length ∨
        ∃ pose0, ik_poses.head? = some pose0 ∧ (ik pose0).1 = false) → r.self = self := by
    intro hc
    rw [earlyFailure_of_check _ _ _ _ _ _ _ _ hc] at h
    simp only [Option.some.injEq] at h
    rw [← h]; rfl
  rcases searchPositionIK_cases _ _ _ _ _ _ _ _ _ h with ⟨hc, _⟩ |
    ⟨hact, hseed, htips, p, self1, los, hp, hik, hb, hcase⟩
  · have hs := hearly hc
    refine ⟨by rw [hs], by rw [hs], by rw [hs], by rw [hs], fun _ => by rw [hs], ?_⟩
    intro pose0 h1 h2 h3 h4 h5
    rcases hc with hc | hc | hc | ⟨q, hq, hqf⟩
    · rw [h1] at hc; simp at hc
    · exact absurd h2 hc
    · exact absurd h3 hc
    · rw [h4] at hq
      obtain rfl : pose0 = q := by simpa using hq
      rw [h5] at hqf; simp at hqf
  · obtain ⟨new, _, _, _, hself1⟩ := boundsLoop_spec _ _ _ _ _ _ _ hb
    have hrs : r.self = self1 := by
      rcases hcase with ⟨_, hr⟩ | ⟨_, _, front, _, hr⟩ | ⟨_, f, _, hr⟩
      · rw [hr]
      · rw [hr]
      · rw [hr]; exact (callbackLoop_spec f p self1 _ _ _ _).1
    rw [hrs, hself1]
    refine ⟨rfl, rfl, rfl, rfl, fun hc => ?_, ?_⟩
    · exfalso
      rcases hc with hc | hc | hc | ⟨q, hq, hqf⟩
      · rw [hact] at hc; simp at hc
      · exact hc hseed
      · exact hc htips
      · rw [hp] at hq
        obtain rfl : p = q := by simpa using hq
        rw [hik] at hqf; simp at hqf
    · intro pose0 _ _ _ h4 _
      rw [hp] at h4
      obtain rfl : p = pose0 := by simpa using h4
      rfl

/-- The amended C5 on a successful call: the robot state ends at the last candidate. -/
theorem searchPositionIK_frame_witness :
    searchPositionIK demoPlugin (fun _ => true) demoIK [0] [0, 0, 0] [] none 0 =
      some { ret := true, solution := [0, 0, 1], error_code := 0,
             self := { demoPlugin with robot_state_ := [0, 1, 0] }, calls := [] } ∧
    (([0, 1, 0] : List ℚ) = ((demoIK 0).2.getLast?).getD demoPlugin.robot_state_) := by
  have h : searchPositionIK demoPlugin (fun _ => true) demoIK [0] [0, 0, 0] [] none 0 =
      some { ret := true, solution := [0, 0, 1], error_code := 0,
             self := { demoPlugin with robot_state_ := [0, 1, 0] }, calls := [] } := by
    simp [searchPositionIK, demoPlugin, demoIK, boundsLoop, distance, distanceLoop,
      setJointGroupPositions, stdSort, LimitObeyingSol.notAfter, LimitObeyingSol.lt]
    norm_num
  exact ⟨h, (searchPositionIK_frame demoPlugin _ demoIK [0] [0, 0, 0] [] none 0 _ h).2.2.2.2.2
    0 rfl rfl rfl rfl rfl⟩

end moveit_bot_kinematics_plugin

namespace bot_kinematics

/-! ### The entries of `forward` and of the trial matrix of `inverse` -/

theorem forward_30 {K : Type} [LinearOrderedField K] (sin cos : K → K)
    (p : Parameters K) (qs : Fin 3 → K) :
    forward sin cos p qs 3 0 =
      cos (qs 1) * cos (qs 2) := by
  simp [forward, Matrix.mul_apply, Fin.sum_univ_four, Matrix.vecHead, Matrix.vecTail]
  try ring

theorem forward_31 {K : Type} [LinearOrderedField K] (sin cos : K → K)
    (p : Parameters K) (qs : Fin 3 → K) :
    forward sin cos p qs 3 1 =
      cos (qs 1) * sin (qs 2) := by
  simp [forward, Matrix.mul_apply, Fin.sum_univ_four, Matrix.vecHead, Matrix.vecTail]
  try ring

theorem forward_32 {K : Type} [LinearOrderedField K] (sin cos : K → K)
    (p : Parameters K) (qs : Fin 3 → K) :
    forward sin cos p qs 3 2 =
      sin (qs 1) := by
  simp [forward, Matrix.mul_apply, Fin.sum_univ_four, Matrix.vecHead, Matrix.vecTail]
  try ring

theorem forward_33 {K : Type} [LinearOrderedField K] (sin cos : K → K)
    (p : Parameters K) (qs : Fin 3 → K) :
    forward sin cos p qs 3 3 =
      cos (qs 1) * cos (qs 2) * p.t3 + sin (qs 1) * p.a3 +
        sin (qs 1) * (p.l3 + p.a2 + p.t1) + 1 := by
  simp [forward, Matrix.mul_apply, Fin.sum_univ_four, Matrix.vecHead, Matrix.vecTail]
  try ring

theorem forward_x {K : Type} [LinearOrderedField K] (sin cos : K → K)
    (p : Parameters K) (qs : Fin 3 → K) :
    forward sin cos p qs 0 3 =
      cos (qs 0) * (sin (qs 1) * cos (qs 2) * p.t3 +
          cos (qs 1) * (p.a3 + (p.l3 + p.a2 + p.t1)) + p.a1) +
        sin (qs 0) * (sin (qs 2) * p.t3 + (p.l2 + p.l3)) := by
  simp [forward, Matrix.mul_apply, Fin.sum_univ_four, Matrix.vecHead, Matrix.vecTail]
  ring

theorem forward_y {K : Type} [LinearOrderedField K] (sin cos : K → K)
    (p : Parameters K) (qs : Fin 3 → K) :
    forward sin cos p qs 1 3 =
      sin (qs 0) * (sin (qs 1) * cos (qs 2) * p.t3 +
          cos (qs 1) * (p.a3 + (p.l3 + p.a2 + p.t1)) + p.a1) +
        cos (qs 0) * (sin (qs 2) * p.t3 + (p.l2 + p.l3)) := by
  simp [forward, Matrix.mul_apply, Fin.sum_univ_four, Matrix.vecHead, Matrix.vecTail]
  ring

theorem forward_z {K : Type} [LinearOrderedField K] (sin cos : K → K)
    (p : Parameters K) (qs : Fin 3 → K) :
    forward sin cos p qs 2 3 =
      cos (qs 1) * cos (qs 2) * p.t3 + sin (qs 1) * (p.a3 + (p.l3 + p.a2 + p.t1)) +
        (p.l1 + p.t1) := by
  simp [forward, Matrix.mul_apply, Fin.sum_univ_four, Matrix.vecHead, Matrix.vecTail]
  ring

theorem forward_01 {K : Type} [LinearOrderedField K] (sin cos : K → K)
    (p : Parameters K) (qs : Fin 3 → K) :
    forward sin cos p qs 0 1 =
      cos (qs 0) * sin (qs 1) * sin (qs 2) + sin (qs 0) * cos (qs 2) := by
  simp [forward, Matrix.mul_apply, Fin.sum_univ_four, Matrix.vecHead, Matrix.vecTail]
  try ring

theorem forward_11 {K : Type} [LinearOrderedField K] (sin cos : K → K)
    (p : Parameters K) (qs : Fin 3 → K) :
    forward sin cos p qs 1 1 =
      sin (qs 0) * sin (qs 1) * sin (qs 2) + cos (qs 0) * cos (qs 2) := by
  simp [forward, Matrix.mul_apply, Fin.sum_univ_four, Matrix.vecHead, Matrix.vecTail]
  try ring

theorem forward_21 {K : Type} [LinearOrderedField K] (sin cos : K → K)
    (p : Parameters K) (qs : Fin 3 → K) :
    forward sin cos p qs 2 1 =
      cos (qs 1) * sin (qs 2) := by
  simp [forward, Matrix.mul_apply, Fin.sum_univ_four, Matrix.vecHead, Matrix.vecTail]
  try ring

theorem forward_02 {K : Type} [LinearOrderedField K] (sin cos : K → K)
    (p : Parameters K) (qs : Fin 3 → K) :
    forward sin cos p qs 0 2 =
      cos (qs 0) * cos (qs 1) := by
  simp [forward, Matrix.mul_apply, Fin.sum_univ_four, Matrix.vecHead, Matrix.vecTail]
  try ring

theorem forward_12 {K : Type} [LinearOrderedField K] (sin cos : K → K)
    (p : Parameters K) (qs : Fin 3 → K) :
    forward sin cos p qs 1 2 =
      sin (qs 0) * cos (qs 1) := by
  simp [forward, Matrix.mul_apply, Fin.sum_univ_four, Matrix.vecHead, Matrix.vecTail]
  try ring

theorem forward_22 {K : Type} [LinearOrderedField K] (sin cos : K → K)
    (p : Parameters K) (qs : Fin 3 → K) :
    forward sin cos p qs 2 2 =
      sin (qs 1) := by
  simp [forward, Matrix.mul_apply, Fin.sum_univ_four, Matrix.vecHead, Matrix.vecTail]
  try ring

theorem inverse_t_x {K : Type} [LinearOrderedField K] (sin cos : K → K)
    (p : Parameters K) (theta1 theta2 : K) :
    inverse_t sin cos p theta1 theta2 0 3 = p.a3 * cos theta1 * cos theta2 := by
  simp [inverse_t, Matrix.vecHead, Matrix.vecTail]

theorem inverse_t_y {K : Type} [LinearOrderedField K] (sin cos : K → K)
    (p : Parameters K) (theta1 theta2 : K) :
    inverse_t sin cos p theta1 theta2 1 3 = p.a3 * sin theta1 * cos theta2 := by
  simp [inverse_t, Matrix.vecHead, Matrix.vecTail]

theorem inverseFlag_iff {K : Type} [LinearOrderedField K] (sin cos : K → K)
    (p : Parameters K) (pose : Mat4 K) (theta1 theta2 : K) :
    inverseFlag sin cos p pose theta1 theta2 = true ↔
      |pose 0 3 - p.a3 * cos theta1 * cos theta2| ≤ error_margin ∧
      |pose 1 3 - p.a3 * sin theta1 * cos theta2| ≤ error_margin := by
  simp only [inverseFlag, inverseLoop, inverse_t_x, inverse_t_y]
  by_cases h0 : error_margin < |pose 0 3 - p.a3 * cos theta1 * cos theta2|
  · simp [h0, not_le.2 h0]
  · by_cases h1 : error_margin < |pose 1 3 - p.a3 * sin theta1 * cos theta2|
    · simp [h0, h1, not_le.2 h1]
    · simp [h0, h1, not_lt.1 h0, not_lt.1 h1]

theorem scenario_translation_entries :
    forward Real.sin Real.cos scenarioParams ![0, 0, 0] 0 3 = 1 ∧
    forward Real.sin Real.cos scenarioParams ![0, 0, 0] 1 3 = 0 ∧
    forward Real.sin Real.cos scenarioParams ![0, 0, 0] 2 3 = 0 := by
  rw [forward_x, forward_y, forward_z]
  simp [scenarioParams]

/-! ### The claims on the kinematics -/

/-- C6, the code at two failing inputs: with all parameters zero and joint angles
`(0, 0, 0)` the bottom row of `forward` is `[1, 0, 0, 1]` and not `[0, 0, 0, 1]`, and with
joint angles `(pi/4, 0, 0)` the entry (1,2) of `R^T * R` for the rotation block `R` of
`forward` is `1` and not `0`. -/
theorem forward_not_rigid :
    (forward Real.sin Real.cos zeroParams ![0, 0, 0] 3 0 = 1 ∧
      forward Real.sin Real.cos zeroParams ![0, 0, 0] 3 1 = 0 ∧
      forward Real.sin Real.cos zeroParams ![0, 0, 0] 3 2 = 0 ∧
      forward Real.sin Real.cos zeroParams ![0, 0, 0] 3 3 = 1) ∧
    (Matrix.transpose (rotation (forward Real.sin Real.cos zeroParams ![Real.pi / 4, 0, 0])) *
      rotation (forward Real.sin Real.cos zeroParams ![Real.pi / 4, 0, 0])) 1 2 = 1 := by
  refine ⟨⟨?_, ?_, ?_, ?_⟩, ?_⟩
  · rw [forward_30]; simp
  · rw [forward_31]; simp
  · rw [forward_32]; simp
  · rw [forward_33]; simp [zeroParams]
  · have hc : ∀ m : Mat4 ℝ, (Matrix.transpose (rotation m) * rotation m) 1 2 =
        m 0 1 * m 0 2 + m 1 1 * m 1 2 + m 2 1 * m 2 2 := by
      intro m
      have h2 : Fin.castSucc (2 : Fin 3) = (2 : Fin 4) := rfl
      simp [Matrix.mul_apply, Fin.sum_univ_three, rotation, h2]
    rw [hc, forward_01, forward_11, forward_21, forward_02, forward_12, forward_22]
    have h2 : Real.sqrt 2 * Real.sqrt 2 = 2 := Real.mul_self_sqrt (by norm_num)
    simp [Real.sin_pi_div_four, Real.cos_pi_div_four]
    nlinarith [h2]

/-- C7, counterexample: in the concrete scenario the translation column of `forward` is
not `(0, 0, 1)`. -/
theorem forward_scenario_not_z :
    translation (forward Real.sin Real.cos scenarioParams ![0, 0, 0]) ≠ ![0, 0, 1] := by
  intro h
  have h0 := congrFun h 0
  simp [translation, scenario_translation_entries.1] at h0

/-- C7 as amended: with `a3 = 1`, all other parameters zero and joint angles `(0, 0, 0)`
the translation column of `forward` is `(1, 0, 0)`. -/
theorem forward_scenario_translation :
    translation (forward Real.sin Real.cos scenarioParams ![0, 0, 0]) = ![1, 0, 0] := by
  obtain ⟨h0, h1, h2⟩ := scenario_translation_entries
  simp [translation, h0, h1, h2]

/-- C8, counterexample: with `a1 = 1`, `a3 = 1`, a target at `(1, 0, 0)` and trial angles
`(0, 0)`, `inverse` accepts the trial angles and writes them to the buffer, and the x
position of `forward` at the candidate differs from the target's by more than the
margin. -/
theorem inverse_forward_mismatch :
    inverseFlag Real.sin Real.cos offsetParams (poseAt 1 0 0) 0 0 = true ∧
    (∀ i, inverse Real.sin Real.cos offsetParams (poseAt 1 0 0) 0 0 (fun _ => some 0) i =
      some ((![0, 0, 0] : Fin 3 → ℝ) i)) ∧
    ¬ |poseAt (1 : ℝ) 0 0 0 3 - forward Real.sin Real.cos offsetParams ![0, 0, 0] 0 3| ≤
      error_margin := by
  have hflag : inverseFlag Real.sin Real.cos offsetParams (poseAt 1 0 0) 0 0 = true := by
    rw [inverseFlag_iff]
    simp [offsetParams, poseAt, error_margin, Matrix.vecHead, Matrix.vecTail]
  refine ⟨hflag, ?_, ?_⟩
  · intro i
    simp only [inverse, hflag, if_true]
    fin_cases i <;> simp
  · rw [forward_x]
    simp [offsetParams, poseAt, error_margin, Matrix.vecHead, Matrix.vecTail]
    norm_num

/-- C8 as amended: for parameters with `a1 = 0`, `t3 = 0`, `l2 + l3 = 0` and
`l3 + a2 + t1 = 0` (those of the concrete scenario among them), every target pose and
every pair of trial angles, if `inverse` accepts the trial angles and the buffer then
holds the candidate, the position of `forward` at the candidate agrees with the pose's
position within the margin on the x and the y axis. -/
theorem inverse_forward_consistent {K : Type} [LinearOrderedField K] (sin cos : K → K)
    (p : Parameters K) (pose : Mat4 K) (theta1 theta2 : K) (out : Fin 3 → Option K)
    (candidate : Fin 3 → K)
    (ha1 : p.a1 = 0) (ht3 : p.t3 = 0) (hl : p.l2 + p.l3 = 0) (hla : p.l3 + p.a2 + p.t1 = 0)
    (hacc : inverseFlag sin cos p pose theta1 theta2 = true)
    (hcand : ∀ i, inverse sin cos p pose theta1 theta2 out i = some (candidate i)) :
    |pose 0 3 - forward sin cos p candidate 0 3| ≤ error_margin ∧
    |pose 1 3 - forward sin cos p candidate 1 3| ≤ error_margin := by
  have h0 : candidate 0 = theta1 := by
    have := hcand 0
    simp only [inverse, hacc, if_true, Option.some.injEq] at this
    exact this.symm
  have h1 : candidate 1 = theta2 := by
    have := hcand 1
    simp only [inverse, hacc, if_true] at this
    simpa using this.symm
  obtain ⟨hx, hy⟩ := (inverseFlag_iff sin cos p pose theta1 theta2).1 hacc
  rw [forward_x, forward_y, h0, h1, ha1, ht3, hl, hla]
  constructor
  · convert hx using 2; ring
  · convert hy using 2; ring

/-- The amended C8 in the concrete scenario, for the pose `forward(params, (0, 0, 0))`. -/
theorem inverse_forward_consistent_witness :
    |forward Real.sin Real.cos scenarioParams ![0, 0, 0] 0 3 -
        forward Real.sin Real.cos scenarioParams ![0, 0, 7] 0 3| ≤ error_margin ∧
    |forward Real.sin Real.cos scenarioParams ![0, 0, 0] 1 3 -
        forward Real.sin Real.cos scenarioParams ![0, 0, 7] 1 3| ≤ error_margin := by
  have hflag : inverseFlag Real.sin Real.cos scenarioParams
      (forward Real.sin Real.cos scenarioParams ![0, 0, 0]) 0 0 = true := by
    rw [inverseFlag_iff, scenario_translation_entries.1, scenario_translation_entries.2.1]
    simp [scenarioParams, error_margin]
  refine inverse_forward_consistent Real.sin Real.cos scenarioParams
    (forward Real.sin Real.cos scenarioParams ![0, 0, 0]) 0 0 (fun _ => some 7) ![0, 0, 7]
    rfl rfl (by simp [scenarioParams]) (by simp [scenarioParams]) hflag ?_
  intro i
  simp only [inverse, hflag, if_true]
  fin_cases i <;> simp

/-- C10, normalizer idempotence: for every joint vector whose three components lie in
`(-3*pi, 3*pi]`, applying `harmonizeTowardZero` twice gives the same vector as applying it
once. -/
theorem harmonizeTowardZero_idempotent {K : Type} [LinearOrderedField K] (pi : K)
    (v : Fin 3 → K) (h : ∀ i, -(3 * pi) < v i ∧ v i ≤ 3 * pi) :
    harmonizeTowardZero pi (harmonizeTowardZero pi v) = harmonizeTowardZero pi v := by
  funext i
  obtain ⟨hlo, hhi⟩ := h i
  simp only [harmonizeTowardZero]
  by_cases h1 : v i > pi
  · have a1 : ¬ (v i - 2 * pi > pi) := by
      simp only [gt_iff_lt, not_lt]; linarith
    have a2 : ¬ (v i - 2 * pi < -pi) := by
      simp only [not_lt]; linarith
    simp only [h1, if_true, a1, a2, if_false]
  · by_cases h2 : v i < -pi
    · have a1 : ¬ (v i + 2 * pi > pi) := by
        simp only [gt_iff_lt, not_lt]; linarith
      have a2 : ¬ (v i + 2 * pi < -pi) := by
        simp only [not_lt]; linarith
      simp only [h1, h2, if_true, a1, a2, if_false]
    · simp only [h1, h2, if_false]

/-- C10 on the vector `(4, -4, 0)` with the real number pi. -/
theorem harmonizeTowardZero_idempotent_witness :
    (∀ i, -(3 * Real.pi) < (![4, -4, 0] : Fin 3 → ℝ) i ∧
      (![4, -4, 0] : Fin 3 → ℝ) i ≤ 3 * Real.pi) ∧
    harmonizeTowardZero Real.pi (harmonizeTowardZero Real.pi ![4, -4, 0]) =
      harmonizeTowardZero Real.pi ![4, -4, 0] := by
  have h : ∀ i, -(3 * Real.pi) < (![4, -4, 0] : Fin 3 → ℝ) i ∧
      (![4, -4, 0] : Fin 3 → ℝ) i ≤ 3 * Real.pi := by
    intro i
    have := Real.pi_gt_three
    fin_cases i <;> simp <;> constructor <;> linarith
  exact ⟨h, harmonizeTowardZero_idempotent Real.pi ![4, -4, 0] h⟩

end bot_kinematics

namespace moveit_bot_kinematics_plugin

open bot_kinematics

/-- C9, the code at two failing inputs, in the concrete scenario (`a3 = 1`).
A target at `(5, 0, 0)` with trial angles `(0, 0)` is rejected by `inverse`, and `getAllIK`
on a buffer holding `(0, 0, 0)` still returns true with the candidate `(0, 0, 0)`.
A target at `(1, 0, 0)` with trial angles `(0, 0)` is accepted, and `getAllIK` on a buffer
whose third cell is not finite returns false with no candidate. -/
theorem getAllIK_ignores_acceptance :
    (inverseFlag Real.sin Real.cos scenarioParams (poseAt 5 0 0) 0 0 = false ∧
      getAllIK Real.sin Real.cos Real.pi scenarioPlugin 0 0 (fun _ => some 0) (poseAt 5 0 0) =
        (true, [[0, 0, 0]])) ∧
    (inverseFlag Real.sin Real.cos scenarioParams (poseAt 1 0 0) 0 0 = true ∧
      getAllIK Real.sin Real.cos Real.pi scenarioPlugin 0 0
          (fun i => if i = 2 then none else some 0) (poseAt 1 0 0) =
        (false, [])) := by
  have hpi := Real.pi_pos
  have hrej : inverseFlag Real.sin Real.cos scenarioParams (poseAt 5 0 0) 0 0 = false := by
    rw [← Bool.not_eq_true, inverseFlag_iff]
    simp [scenarioParams, poseAt, error_margin, Matrix.vecHead, Matrix.vecTail]
    norm_num
  have hacc : inverseFlag Real.sin Real.cos scenarioParams (poseAt 1 0 0) 0 0 = true := by
    rw [inverseFlag_iff]
    simp [scenarioParams, poseAt, error_margin, Matrix.vecHead, Matrix.vecTail]
  refine ⟨⟨hrej, ?_⟩, ⟨hacc, ?_⟩⟩
  · have hn : ¬ (0 : ℝ) < -Real.pi := by linarith
    have hp : ¬ Real.pi < (0 : ℝ) := by linarith
    simp [getAllIK, inverse, scenarioPlugin, hrej, isValid, harmonizeTowardZero, hn, hp]
  · simp [getAllIK, inverse, scenarioPlugin, hacc, isValid]

end moveit_bot_kinematics_plugin

namespace bot_kinematics

/-! ### The claims on the normalizer range and the output buffer of `inverse` -/

/-- C11, counterexample: with the real number pi, the component `-3 * pi` lies outside
`(-3*pi, 3*pi]` and `harmonizeTowardZero` maps it to `-pi`, which lies in `[-pi, pi]`. -/
theorem harmonizeTowardZero_minus_three_pi :
    harmonizeTowardZero Real.pi ![-(3 * Real.pi), 0, 0] 0 = -Real.pi ∧
    (-Real.pi ≤ harmonizeTowardZero Real.pi ![-(3 * Real.pi), 0, 0] 0 ∧
      harmonizeTowardZero Real.pi ![-(3 * Real.pi), 0, 0] 0 ≤ Real.pi) ∧
    ¬ (-(3 * Real.pi) < (![-(3 * Real.pi), 0, 0] : Fin 3 → ℝ) 0 ∧
      (![-(3 * Real.pi), 0, 0] : Fin 3 → ℝ) 0 ≤ 3 * Real.pi) := by
  have hpi := Real.pi_pos
  have h1 : ¬ (-(3 * Real.pi) > Real.pi) := by
    simp only [gt_iff_lt, not_lt]; linarith
  have h2 : -(3 * Real.pi) < -Real.pi := by linarith
  have hval : harmonizeTowardZero Real.pi ![-(3 * Real.pi), 0, 0] 0 = -Real.pi := by
    simp only [harmonizeTowardZero, Matrix.cons_val_zero, h1, h2, if_true, if_false]
    ring
  refine ⟨hval, ⟨?_, ?_⟩, ?_⟩
  · rw [hval]
  · rw [hval]; linarith
  · simp

/-- C11 as amended: for `pi >= 0` and every component `x`, `harmonizeTowardZero` maps `x`
to `x - 2*pi` if `x > pi`, to `x + 2*pi` if `x < -pi`, and to `x` otherwise, and the
result lies in `[-pi, pi]` if and only if `x` lies in the closed range
`[-3*pi, 3*pi]`. -/
theorem harmonizeTowardZero_range {K : Type} [LinearOrderedField K] (pi : K)
    (hpi : 0 ≤ pi) (qs : Fin 3 → K) (i : Fin 3) :
    (pi < qs i → harmonizeTowardZero pi qs i = qs i - 2 * pi) ∧
    (qs i < -pi → harmonizeTowardZero pi qs i = qs i + 2 * pi) ∧
    (¬ pi < qs i → ¬ qs i < -pi → harmonizeTowardZero pi qs i = qs i) ∧
    ((-pi ≤ harmonizeTowardZero pi qs i ∧ harmonizeTowardZero pi qs i ≤ pi) ↔
      (-(3 * pi) ≤ qs i ∧ qs i ≤ 3 * pi)) := by
  simp only [harmonizeTowardZero, gt_iff_lt]
  by_cases h1 : pi < qs i
  · have h2 : ¬ qs i < -pi := by
      simp only [not_lt]; linarith
    simp only [h1, h2, if_true, true_implies, false_implies, not_true_eq_false, true_and]
    constructor
    · rintro ⟨_, hb⟩; constructor <;> linarith
    · rintro ⟨_, hb⟩; constructor <;> linarith
  · by_cases h2 : qs i < -pi
    · simp only [h1, h2, if_true, if_false, true_implies, false_implies, not_true_eq_false,
        not_false_eq_true, true_and]
      constructor
      · rintro ⟨ha, _⟩; constructor <;> linarith
      · rintro ⟨ha, _⟩; constructor <;> linarith
    · simp only [h1, h2, if_false, false_implies, not_false_eq_true, true_implies, true_and]
      have h1' := not_lt.1 h1
      have h2' := not_lt.1 h2
      constructor
      · rintro ⟨_, _⟩; constructor <;> linarith
      · rintro ⟨_, _⟩; exact ⟨h2', h1'⟩

/-- The amended C11 on the component `-3 * pi` with the real number pi. -/
theorem harmonizeTowardZero_range_witness :
    (0 : ℝ) ≤ Real.pi ∧
    ((-Real.pi ≤ harmonizeTowardZero Real.pi ![-(3 * Real.pi), 0, 0] 0 ∧
        harmonizeTowardZero Real.pi ![-(3 * Real.pi), 0, 0] 0 ≤ Real.pi) ↔
      (-(3 * Real.pi) ≤ (![-(3 * Real.pi), 0, 0] : Fin 3 → ℝ) 0 ∧
        (![-(3 * Real.pi), 0, 0] : Fin 3 → ℝ) 0 ≤ 3 * Real.pi)) :=
  ⟨Real.pi_pos.le,
    (harmonizeTowardZero_range Real.pi Real.pi_pos.le ![-(3 * Real.pi), 0, 0] 0).2.2.2⟩

/-- C12, inverse output frame: for every parameter set, target pose, trial angles and
initial buffer, `inverse` leaves the third cell `out[2]` as it was; when both tested
residuals are within the margin it writes the trial angles to `out[0]` and `out[1]`, and
when one of them is not it leaves the whole buffer as it was. -/
theorem inverse_frame {K : Type} [LinearOrderedField K] (sin cos : K → K)
    (p : Parameters K) (pose : Mat4 K) (theta1 theta2 : K) (out : Fin 3 → Option K) :
    inverse sin cos p pose theta1 theta2 out 2 = out 2 ∧
    ((|pose 0 3 - inverse_t sin cos p theta1 theta2 0 3| ≤ error_margin ∧
        |pose 1 3 - inverse_t sin cos p theta1 theta2 1 3| ≤ error_margin) →
      inverse sin cos p pose theta1 theta2 out 0 = some theta1 ∧
      inverse sin cos p pose theta1 theta2 out 1 = some theta2) ∧
    (¬ (|pose 0 3 - inverse_t sin cos p theta1 theta2 0 3| ≤ error_margin ∧
        |pose 1 3 - inverse_t sin cos p theta1 theta2 1 3| ≤ error_margin) →
      inverse sin cos p pose theta1 theta2 out = out) := by
  have hiff := inverseFlag_iff sin cos p pose theta1 theta2
  rw [← inverse_t_x sin cos p theta1 theta2, ← inverse_t_y sin cos p theta1 theta2] at hiff
  refine ⟨?_, fun hacc => ?_, fun hrej => ?_⟩
  · unfold inverse
    by_cases hf : inverseFlag sin cos p pose theta1 theta2 = true
    · simp only [hf, if_true]
      have h20 : (2 : Fin 3) ≠ 0 := by decide
      have h21 : (2 : Fin 3) ≠ 1 := by decide
      simp only [h20, h21, if_false]
    · simp only [hf, Bool.false_eq_true, if_false]
  · have hf := hiff.2 hacc
    have h10 : (1 : Fin 3) ≠ 0 := by decide
    simp only [inverse, hf, if_true, h10, if_false, and_self]
  · have hf : ¬ inverseFlag sin cos p pose theta1 theta2 = true := fun h => hrej (hiff.1 h)
    simp only [inverse, hf, Bool.false_eq_true, if_false]

/-- C12 in the concrete scenario: an accepted target at `(1, 0, 0)` with trial angles
`(0, 0)` and a buffer holding `(7, 7, 7)`. -/
theorem inverse_frame_witness :
    (|poseAt (1 : ℝ) 0 0 0 3 - inverse_t Real.sin Real.cos scenarioParams 0 0 0 3| ≤
        error_margin ∧
      |poseAt (1 : ℝ) 0 0 1 3 - inverse_t Real.sin Real.cos scenarioParams 0 0 1 3| ≤
        error_margin) ∧
    inverse Real.sin Real.cos scenarioParams (poseAt 1 0 0) 0 0 (fun _ => some 7) 2 =
      some 7 ∧
    inverse Real.sin Real.cos scenarioParams (poseAt 1 0 0) 0 0 (fun _ => some 7) 0 =
      some 0 ∧
    inverse Real.sin Real.cos scenarioParams (poseAt 1 0 0) 0 0 (fun _ => some 7) 1 =
      some 0 := by
  have hacc : |poseAt (1 : ℝ) 0 0 0 3 - inverse_t Real.sin Real.cos scenarioParams 0 0 0 3| ≤
        error_margin ∧
      |poseAt (1 : ℝ) 0 0 1 3 - inverse_t Real.sin Real.cos scenarioParams 0 0 1 3| ≤
        error_margin := by
    rw [inverse_t_x, inverse_t_y]
    simp [scenarioParams, poseAt, error_margin, Matrix.vecHead, Matrix.vecTail]
  have h := inverse_frame Real.sin Real.cos scenarioParams (poseAt 1 0 0) 0 0
    (fun _ => some 7)
  exact ⟨hacc, h.1, (h.2.1 hacc).1, (h.2.1 hacc).2⟩

end bot_kinematics

namespace moveit_bot_kinematics_plugin

open bot_kinematics

/-! ### The claim on the reads of `distance` -/

theorem distanceLoop_length {K : Type} [LinearOrderedField K] :
    ∀ (a b : List K) (cost d : K), distanceLoop a b cost = some d → a.length ≤ b.length := by
  intro a
  induction a with
  | nil => intro b cost d _; simp
  | cons x a ih =>
    intro b cost d h
    cases b with
    | nil => simp [distanceLoop] at h
    | cons y b =>
      simp only [distanceLoop] at h
      have := ih b _ d h
      simpa using this

theorem distance_isSome_iff {K : Type} [LinearOrderedField K] (a b : List K) :
    (∃ d, distance a b = some d) ↔ ∀ i ∈ distanceReads a, i < b.length := by
  constructor
  · rintro ⟨d, hd⟩ i hi
    have hlen := distanceLoop_length a b 0 d hd
    simp only [distanceReads, List.mem_range] at hi
    omega
  · intro h
    apply distanceLoop_isSome a b 0
    cases ha : a.length with
    | zero => exact Nat.zero_le _
    | succ n =>
      have := h n (by simp [distanceReads, ha])
      omega

theorem getAllIK_candidate {K : Type} [LinearOrderedField K] (sin cos : K → K) (pi : K)
    (self : MoveItBotKinematicsPlugin K) (theta1 theta2 : K) (sols : Fin 3 → Option K)
    (pose : Mat4 K) (c : List K)
    (hc : c ∈ (getAllIK sin cos pi self theta1 theta2 sols pose).2) :
    ∃ c0 c1 c2, c = [c0, c1, c2] := by
  simp only [getAllIK] at hc
  by_cases hv : isValid (inverse sin cos self.bot_parameters_ pose theta1 theta2 sols) = true
  · simp only [hv, if_true, List.mem_singleton] at hc
    exact ⟨_, _, _, hc⟩
  · simp only [hv, Bool.false_eq_true, if_false, List.not_mem_nil] at hc

/-- C13, cost computation in bounds: for every seed whose length is the configured
dimension, with the dimension at least 3, and every candidate `getAllIK` produces, every
index at which `distance(candidate, seed)` reads the seed is below the seed's length, and
the cost is `|seed[0] - c[0]| + |seed[1] - c[1]| + |seed[2] - c[2]|` over the three
components of the candidate, whatever the seed holds from index 3 on. -/
theorem distance_reads_in_bounds {K : Type} [LinearOrderedField K] (sin cos : K → K)
    (pi : K) (self : MoveItBotKinematicsPlugin K) (theta1 theta2 : K)
    (sols : Fin 3 → Option K) (pose : Mat4 K) (seed c : List K)
    (hseed : seed.length = self.dimension_) (hdim : 3 ≤ self.dimension_)
    (hc : c ∈ (getAllIK sin cos pi self theta1 theta2 sols pose).2) :
    (∀ i ∈ distanceReads c, i < seed.length) ∧
    ∃ c0 c1 c2 s0 s1 s2 rest, c = [c0, c1, c2] ∧ seed = s0 :: s1 :: s2 :: rest ∧
      distance c seed = some (|s0 - c0| + |s1 - c1| + |s2 - c2|) ∧
      ∀ rest1, distance c (s0 :: s1 :: s2 :: rest1) = distance c seed := by
  obtain ⟨c0, c1, c2, rfl⟩ := getAllIK_candidate sin cos pi self theta1 theta2 sols pose c hc
  have hlen : 3 ≤ seed.length := by rw [hseed]; exact hdim
  refine ⟨fun i hi => ?_, ?_⟩
  · simp only [distanceReads, List.length_cons, List.length_nil, List.mem_range] at hi
    omega
  · match seed, hlen with
    | s0 :: s1 :: s2 :: rest, _ =>
      refine ⟨c0, c1, c2, s0, s1, s2, rest, rfl, rfl, ?_, fun rest1 => ?_⟩
      · simp [distance, distanceLoop]
      · simp [distance, distanceLoop]

/-- C13 on a solver of dimension 4 in the concrete scenario: the candidate `(0, 0, 0)` and
the seed `(1, 2, 3, 4)`. -/
theorem distance_reads_in_bounds_witness :
    ([0, 0, 0] : List ℝ) ∈ (getAllIK Real.sin Real.cos Real.pi
      { scenarioPlugin with dimension_ := 4 } 0 0 (fun _ => some 0) (poseAt 1 0 0)).2 ∧
    (∀ i ∈ distanceReads ([0, 0, 0] : List ℝ), i < ([1, 2, 3, 4] : List ℝ).length) ∧
    ∃ c0 c1 c2 s0 s1 s2 rest, ([0, 0, 0] : List ℝ) = [c0, c1, c2] ∧
      ([1, 2, 3, 4] : List ℝ) = s0 :: s1 :: s2 :: rest ∧
      distance [0, 0, 0] [1, 2, 3, 4] = some (|s0 - c0| + |s1 - c1| + |s2 - c2|) ∧
      ∀ rest1, distance [0, 0, 0] (s0 :: s1 :: s2 :: rest1) =
        distance ([0, 0, 0] : List ℝ) [1, 2, 3, 4] := by
  have hacc : inverseFlag Real.sin Real.cos scenarioParams (poseAt 1 0 0) 0 0 = true := by
    rw [inverseFlag_iff]
    simp [scenarioParams, poseAt, error_margin, Matrix.vecHead, Matrix.vecTail]
  have hmem : ([0, 0, 0] : List ℝ) ∈ (getAllIK Real.sin Real.cos Real.pi
      { scenarioPlugin with dimension_ := 4 } 0 0 (fun _ => some 0) (poseAt 1 0 0)).2 := by
    have hpi := Real.pi_pos
    have hn : ¬ (0 : ℝ) < -Real.pi := by linarith
    have hp : ¬ Real.pi < (0 : ℝ) := by linarith
    simp [getAllIK, inverse, scenarioPlugin, hacc, isValid, harmonizeTowardZero, hn, hp]
  exact ⟨hmem, distance_reads_in_bounds Real.sin Real.cos Real.pi
    { scenarioPlugin with dimension_ := 4 } 0 0 (fun _ => some 0) (poseAt 1 0 0)
    [1, 2, 3, 4] [0, 0, 0] rfl (by decide) hmem⟩

end moveit_bot_kinematics_plugin
